import Mathlib

/-!
# Verification of the rally_bot catalog-discovery and notification engine

Shallow embedding of the deduplication / notification engine of
`src/run_bot.py` and the resilient fetch and normalization helpers of
`src/data_fetcher.py`, together with proofs of the specified properties.

Conventions:
* Python `dict`s keyed by user id are embedded as functions
  `String → Option _` (`none` = key absent), so `d.get(k, [])` becomes
  `(d k).getD []` and `k in d` becomes `(d k).isSome`.
* Python strings are embedded as `String` (for route fields and
  fingerprints) or `List Char` (for the character-cleaning function,
  whose behaviour is per-character).
* All side effects other than state mutation (logging, JSON persistence
  to disk, sending Telegram messages) are dropped; the persisted
  notification-history file always mirrors the in-memory dict, which is
  the value modelled here.
-/

namespace RallyBot

/-- One availability window of a route, exactly as stored in the
`available_dates` entries of `station_routes.json`: the `startDate` and
`endDate` fields hold `"dd/mm/yyyy"`-formatted strings (they are produced
by `strftime("%d/%m/%Y")` in `data_fetcher.process_station_destinations`). -/
structure DateEntry where
  startDate : String
  endDate : String
deriving DecidableEq, Repr

/-- One entry of a station's `returns` list, as built by
`data_fetcher.process_station_destinations` (`route_data`): keys
`destination`, `destination_address`, `available_dates`, `model_name`,
`model_image` (the `roadsurfer_url` key is folded into `model_image`-like
payload fields that the engine never reads; we keep the fields the engine
touches plus representative payload fields it ignores). -/
structure Return where
  destination : String
  destination_address : String
  available_dates : List DateEntry
  model_name : String
  model_image : String
deriving DecidableEq, Repr

/-- A route/station record as consumed by the notification engine
(`{'origin': str, 'origin_address': str, 'returns': [dict]}`). -/
structure Station where
  origin : String
  origin_address : String
  returns : List Return
deriving DecidableEq, Repr

/-- The notification history dict `subscriberId -> [fingerprint]`
(`self.notification_history`). `none` models key absence. -/
abbrev History := String → Option (List String)

/-- Functional update of a history dict: `h[u] = l`. -/
def histInsert (h : History) (u : String) (l : List String) : History :=
  fun x => if x = u then some l else h x

/-- The fingerprint built in `_is_new_route` / `_mark_route_as_notified` /
`_check_deleted_routes` for one `returns` entry:
`route_id = f"{origin}_{ret['destination']}"` followed by
`route_id += f"_{date['startDate']}_{date['endDate']}"` for each entry of
`ret['available_dates']`, in list order. -/
def routeId (origin : String) (ret : Return) : String :=
  ret.available_dates.foldl
    (fun acc d => acc ++ "_" ++ d.startDate ++ "_" ++ d.endDate)
    (origin ++ "_" ++ ret.destination)

/-- The `route_ids` list built in `_is_new_route`: one fingerprint per
`returns` entry, in order. -/
def routeIds (c : Station) : List String :=
  c.returns.map (routeId c.origin)

/-- `RoadsurferBot._is_new_route` (src/run_bot.py:360-375): returns `True`
if the user has no history entry; otherwise builds the fingerprint list and
returns `not any(rid in notified_routes for rid in route_ids)`. -/
def is_new_route (h : History) (u : String) (c : Station) : Bool :=
  match h u with
  | none => true
  | some notified => !((routeIds c).any fun rid => notified.contains rid)

/-- One iteration of the `for ret in station.get('returns', [])` loop body
of `_mark_route_as_notified`, specialised to the computed fingerprint:
append `rid` to the user's history list if it is not already there. -/
def markStep (u : String) (h : History) (rid : String) : History :=
  let cur := (h u).getD []
  if cur.contains rid then h else histInsert h u (cur ++ [rid])

/-- `RoadsurferBot._mark_route_as_notified` (src/run_bot.py:377-396):
creates an empty history entry for the user if absent, then for each
`returns` entry computes its fingerprint and appends it to the user's list
when not already present.  (The loop computes `route_id` from `ret` and then
tests/appends; folding `markStep` over the precomputed fingerprint list
`routeIds c` performs the identical sequence of updates.)  The trailing
JSON dump mirrors the in-memory dict and is dropped. -/
def mark_route_as_notified (h : History) (u : String) (c : Station) : History :=
  let h0 : History := match h u with
    | none => histInsert h u []
    | some _ => h
  (routeIds c).foldl (markStep u) h0

/-! ## Date parsing and the date filter -/

/-- A parsed calendar date, the shallow embedding of a
`datetime.datetime` value at midnight (only the date portion is ever
produced by the source's `strptime` calls). -/
structure CalDate where
  year : Nat
  month : Nat
  day : Nat
deriving DecidableEq, Repr

/-- `datetime` comparison `a <= b` on the embedded dates: lexicographic on
(year, month, day). -/
def dateLe (a b : CalDate) : Bool :=
  decide (a.year < b.year) ||
    (decide (a.year = b.year) &&
      (decide (a.month < b.month) ||
        (decide (a.month = b.month) && decide (a.day ≤ b.day))))

/-- Gregorian leap-year test, as used by `datetime`'s calendar validity
check. -/
def isLeapYear (y : Nat) : Bool :=
  decide (y % 4 = 0) && (decide (y % 100 ≠ 0) || decide (y % 400 = 0))

/-- Number of days of month `m` of year `y` (the calendar validity bound
`strptime` enforces). -/
def daysInMonth (y m : Nat) : Nat :=
  if m = 2 then (if isLeapYear y then 29 else 28)
  else if m = 4 ∨ m = 6 ∨ m = 9 ∨ m = 11 then 30
  else 31

/-- Validity check performed by `datetime.datetime`: year in 1..9999,
month in 1..12, day within the month. -/
def validDate (y m d : Nat) : Bool :=
  decide (1 ≤ y) && decide (y ≤ 9999) && decide (1 ≤ m) && decide (m ≤ 12) &&
    decide (1 ≤ d) && decide (d ≤ daysInMonth y m)

/-- Split a character list at every occurrence of `sep` (the behaviour of
`str.split(sep)` for a one-character separator, used to embed the
fixed-separator patterns `"%d/%m/%Y"` and `"%Y-%m-%d"`). -/
def splitOnChar (sep : Char) : List Char → List (List Char)
  | [] => [[]]
  | c :: cs =>
    if c = sep then [] :: splitOnChar sep cs
    else
      match splitOnChar sep cs with
      | [] => [[c]]
      | w :: ws => (c :: w) :: ws

/-- Parse a numeric field of `minLen`..`maxLen` digits (the embedding of a
`strptime` directive such as `%d` (1-2 digits), `%m` (1-2 digits) or `%Y`
(exactly 4 digits)). -/
def parseField (cs : List Char) (minLen maxLen : Nat) : Option Nat :=
  if minLen ≤ cs.length ∧ cs.length ≤ maxLen ∧ cs.all Char.isDigit then
    some (cs.foldl (fun n c => 10 * n + (c.toNat - 48)) 0)
  else none

/-- `datetime.strptime(s, "%d/%m/%Y")`, returning `none` where the source
raises `ValueError`: the string must be three `/`-separated digit fields
(day 1-2 digits, month 1-2 digits, year exactly 4 digits) forming a valid
calendar date. -/
def parseDMY (s : String) : Option CalDate :=
  match splitOnChar '/' s.toList with
  | [ds, ms, ys] =>
    match parseField ds 1 2, parseField ms 1 2, parseField ys 4 4 with
    | some d, some m, some y => if validDate y m d then some ⟨y, m, d⟩ else none
    | _, _, _ => none
  | _ => none

/-- `datetime.strptime(s, "%Y-%m-%d")`, returning `none` where the source
raises `ValueError`. -/
def parseYMD (s : String) : Option CalDate :=
  match splitOnChar '-' s.toList with
  | [ys, ms, ds] =>
    match parseField ys 4 4, parseField ms 1 2, parseField ds 1 2 with
    | some y, some m, some d => if validDate y m d then some ⟨y, m, d⟩ else none
    | _, _, _ => none
  | _ => none

/-- One user-configured date range, an entry of `user_date_filters.json`
with keys `start` / `end` holding `"yyyy-mm-dd"` strings (`end` being a
Lean keyword, the fields are named `fstart` / `fend`). -/
structure FilterRange where
  fstart : String
  fend : String
deriving DecidableEq, Repr

/-- The body of the inner `for r in ranges` loop of
`_route_passes_date_filter`: parse the range's `start`/`end` as
`%Y-%m-%d` (a `ValueError`/`KeyError` skips the range, i.e. contributes
`false`) and apply the boundary-inclusive overlap test
`route_start <= f_end and route_end >= f_start` against the already-parsed
window `[ws, we]`. -/
def windowRangeOverlap (r : FilterRange) (ws we : CalDate) : Bool :=
  match parseYMD r.fstart, parseYMD r.fend with
  | some fs, some fe => dateLe ws fe && dateLe fs we
  | _, _ => false

/-- The body of the outer `for date_entry in ret.get('available_dates', [])`
loop of `_route_passes_date_filter`: parse the window's
`startDate`/`endDate` as `%d/%m/%Y` (a parse failure skips the window) and
test it against every configured range. -/
def windowMatches (ranges : List FilterRange) (w : DateEntry) : Bool :=
  match parseDMY w.startDate, parseDMY w.endDate with
  | some ws, some we => ranges.any fun r => windowRangeOverlap r ws we
  | _, _ => false

/-- `RoadsurferBot._route_passes_date_filter` (src/run_bot.py:152-176)
given the user's resolved `ranges` list: empty ranges always pass
(`if not ranges: return True`); otherwise the function returns `True` iff
the doubly-nested loop finds some window of `ret['available_dates']`
overlapping some range, both well-formed — i.e. iff some window matches. -/
def route_passes_date_filter (ranges : List FilterRange) (ret : Return) : Bool :=
  if ranges.isEmpty then true
  else ret.available_dates.any fun w => windowMatches ranges w

/-- The user-level entry point of `_route_passes_date_filter`: the ranges
are `self.user_date_filters.get(user_id, [])`. -/
def route_passes_date_filter_user
    (filters : String → Option (List FilterRange)) (u : String) (ret : Return) : Bool :=
  route_passes_date_filter ((filters u).getD []) ret

/-! ## Engine state -/

/-- The mutable fields of `RoadsurferBot` that the notification engine can
see (src/run_bot.py `__init__`): the route catalog, the favorites dict, the
date-filter dict, the notification history and the last-update timestamp.
File paths, cooldown constants and the Telegram wiring carry no
engine-visible state and are omitted. -/
structure BotState where
  stations_with_returns : List Station
  user_favorites : String → Option (List String)
  user_date_filters : String → Option (List FilterRange)
  notification_history : History
  last_update_time : Nat

/-- `_is_new_route` in explicit state-passing form.  The Python body only
reads `self.notification_history` (it builds a local `route_ids` list and
returns a boolean; no attribute of `self` is assigned), so its
state-transformer translation pairs the boolean with the unchanged
state. -/
def is_new_route_s (s : BotState) (u : String) (c : Station) : Bool × BotState :=
  (is_new_route s.notification_history u c, s)

/-! ## The notification flow (`_check_and_notify_route`) -/

/-- A notification event emitted by `_notify_user`: the route payload and
the `is_origin` flag of the call (`matchedAsOrigin`). -/
structure Notification where
  route : Station
  is_origin : Bool
deriving DecidableEq, Repr

/-- The body of the `for user_id, favorite_stations in
self.user_favorites.items()` loop of `_check_and_notify_route`
(src/run_bot.py:398-450) for one user: first the origin-match branch
(filter the returns by the date filter, and if the filtered route is new,
notify with `is_origin=True` and mark it), then the `for ret in
route.get('returns', [])` destination loop (for each favorited, non-empty
destination passing the date filter, build the single-destination route
and, if new, notify with `is_origin=False` and mark it).  Returns the
emitted notifications in order together with the updated history. -/
def check_and_notify_route_user (favs : List String) (ranges : List FilterRange)
    (route : Station) (h : History) (u : String) : List Notification × History :=
  let step1 : List Notification × History :=
    if favs.contains route.origin then
      let filtered := route.returns.filter fun r => route_passes_date_filter ranges r
      if !filtered.isEmpty then
        let froute : Station := { route with returns := filtered }
        if is_new_route h u froute then
          ([⟨froute, true⟩], mark_route_as_notified h u froute)
        else ([], h)
      else ([], h)
    else ([], h)
  route.returns.foldl
    (fun (acc : List Notification × History) ret =>
      if ret.destination ≠ "" ∧ favs.contains ret.destination then
        if route_passes_date_filter ranges ret then
          let droute : Station :=
            { origin := route.origin, origin_address := route.origin_address,
              returns := [ret] }
          if is_new_route acc.2 u droute then
            (acc.1 ++ [⟨droute, false⟩], mark_route_as_notified acc.2 u droute)
          else acc
        else acc
      else acc)
    step1

/-- `RoadsurferBot._check_and_notify_route` (src/run_bot.py:398-450).
The guard `if not origin or not route.get('returns'): return` drops routes
with an empty origin or no returns; otherwise the per-user body runs for
each `(user_id, favorite_stations)` item of `self.user_favorites`
(embedded as an association list to make the iteration order explicit),
threading the notification history.  Events are tagged with the user they
were sent to. -/
def check_and_notify_route (favorites : List (String × List String))
    (filters : String → Option (List FilterRange))
    (route : Station) (h : History) : List (String × Notification) × History :=
  if route.origin = "" ∨ route.returns.isEmpty then ([], h)
  else
    favorites.foldl
      (fun (acc : List (String × Notification) × History) uf =>
        let r := check_and_notify_route_user uf.2 ((filters uf.1).getD []) route acc.2 uf.1
        (acc.1 ++ r.1.map fun e => (uf.1, e), r.2))
      ([], h)

/-! ## Reconciliation (`_check_deleted_routes`) -/

/-- The `current_route_ids` set built by `_check_deleted_routes`
(src/run_bot.py:488-514): the fingerprint of every `returns` entry of
every station of the fresh catalog.  Embedded as a list; only membership
in it is ever used. -/
def currentRouteIds (stations : List Station) : List String :=
  stations.flatMap routeIds

/-- `RoadsurferBot._check_deleted_routes` (src/run_bot.py:488-514), state
part: every subscriber's history list is replaced by
`[route for route in notified_routes if route in current_route_ids]`.
The dict iteration touches exactly the present keys, which the pointwise
`Option.map` reproduces; the trailing JSON dump is dropped. -/
def check_deleted_routes (h : History) (stations : List Station) : History :=
  fun u => (h u).map fun l => l.filter fun rid => (currentRouteIds stations).contains rid

/-! ## The resilient fetcher (`StationDataFetcher.get_json_from_url`) -/

/-- The upstream's answer to one issued request, as seen through
`urlopen`: a successful 200 response whose body parses as JSON (the
payload is opaque to the retry logic and modelled as a `Nat`), an
`HTTPError` with a status code, or any other raised exception (network
failure, or a body that fails `json.loads` — both land in the generic
`except Exception` handler). -/
inductive UpstreamResp where
  | success (payload : Nat)
  | httpError (code : Nat)
  | transportError
deriving DecidableEq, Repr

/-- The observable outcome of one `get_json_from_url` call: the returned
value (`none` embeds Python `None`), the number of requests issued, and
every `time.sleep` duration in call order, in tenths of a second
(`request_delay = 0.1 s` is `1`, `retry_delay = 5 s` is `50`). -/
structure FetchTrace where
  result : Option Nat
  requests : Nat
  sleeps : List Nat
deriving DecidableEq, Repr

/-- The `for attempt in range(self.max_retries)` loop of
`StationDataFetcher.get_json_from_url` (src/data_fetcher.py:307-361).
`remaining` is the number of loop iterations left (`maxR - attempt`, kept
structural for termination).  Each iteration first sleeps
`retryDelay * 2^(attempt-1)` (attempt > 0) or `requestDelay` (attempt 0),
then issues the request.  A success returns its payload.  An
`HTTPError` 429 sleeps `retryDelay * 2^attempt` and continues when
attempts remain, else returns `None`; any other `HTTPError` returns `None`
immediately; any other exception behaves like the 429 path.  (The inline
`response.status != 200` branch is unreachable: `urlopen` raises
`HTTPError` for every non-2xx status, so it is not modelled.)  Falling out
of the loop returns `None`. -/
def fetchLoop (maxR retryDelay requestDelay : Nat) (resp : Nat → UpstreamResp) :
    Nat → Nat → List Nat → FetchTrace
  | attempt, 0, sleeps => ⟨none, attempt, sleeps⟩
  | attempt, remaining + 1, sleeps =>
    let pre := if attempt > 0 then retryDelay * 2 ^ (attempt - 1) else requestDelay
    let sleeps := sleeps ++ [pre]
    match resp attempt with
    | .success v => ⟨some v, attempt + 1, sleeps⟩
    | .httpError code =>
      if code = 429 then
        if attempt < maxR - 1 then
          fetchLoop maxR retryDelay requestDelay resp (attempt + 1) remaining
            (sleeps ++ [retryDelay * 2 ^ attempt])
        else ⟨none, attempt + 1, sleeps⟩
      else ⟨none, attempt + 1, sleeps⟩
    | .transportError =>
      if attempt < maxR - 1 then
        fetchLoop maxR retryDelay requestDelay resp (attempt + 1) remaining
          (sleeps ++ [retryDelay * 2 ^ attempt])
      else ⟨none, attempt + 1, sleeps⟩

/-- `StationDataFetcher.get_json_from_url`, parameterised by the
configured `max_retries` / `retry_delay` / `request_delay` and by the
upstream's response to each issued request (request `n` gets `resp n`). -/
def get_json_from_url (maxR retryDelay requestDelay : Nat)
    (resp : Nat → UpstreamResp) : FetchTrace :=
  fetchLoop maxR retryDelay requestDelay resp 0 maxR []

/-! ## Name/address cleaning (`StationDataFetcher.cleanup_special_characters`) -/

/-- The whitespace characters recognised by Python's `str.split()` with no
argument (the `str.isspace` set): ASCII whitespace, the information
separators, NEL, NBSP and the Unicode space/line/paragraph separators. -/
def wsChars : List Char :=
  ['\t', '\n', Char.ofNat 0x0b, Char.ofNat 0x0c, '\r',
   Char.ofNat 0x1c, Char.ofNat 0x1d, Char.ofNat 0x1e, Char.ofNat 0x1f,
   ' ', Char.ofNat 0x85, Char.ofNat 0xa0, Char.ofNat 0x1680,
   Char.ofNat 0x2000, Char.ofNat 0x2001, Char.ofNat 0x2002, Char.ofNat 0x2003,
   Char.ofNat 0x2004, Char.ofNat 0x2005, Char.ofNat 0x2006, Char.ofNat 0x2007,
   Char.ofNat 0x2008, Char.ofNat 0x2009, Char.ofNat 0x200a,
   Char.ofNat 0x2028, Char.ofNat 0x2029, Char.ofNat 0x202f,
   Char.ofNat 0x205f, Char.ofNat 0x3000]

/-- Whitespace test used by `str.split()`. -/
def isSpaceCh (c : Char) : Bool := wsChars.contains c

/-- The single-character substitutions of `cleanup_special_characters`
(src/data_fetcher.py:52-72), in execution order: first the entries of the
`replacements` dict in insertion order, then the four chained
`.replace("(", "")...` removals, then `.replace("\t", " ")`.  Every
pattern of the source is a single character, so each `str.replace` call is
a per-character substitution.  (Apostrophe, double quote, backslash and
tab are written via `Char.ofNat` 39 / 34 / 92 / 9.) -/
def replacements : List (Char × List Char) :=
  [('ä', ['a', 'e']), ('ö', ['o', 'e']), ('ü', ['u', 'e']), ('ß', ['s', 's']),
   ('Ä', ['A', 'e']), ('Ö', ['O', 'E']), ('Ü', ['U', 'E']),
   ('Á', ['A']), ('É', ['E']), ('Í', ['I']), ('Ó', ['O']), ('Ú', ['U']),
   ('á', ['a']), ('é', ['e']), ('í', ['i']), ('ó', ['o']), ('ú', ['u']),
   ('ø', ['o', 'e']), ('Ø', ['O', 'E']),
   ('‘', [Char.ofNat 39]), ('’', [Char.ofNat 39]),
   ('“', [Char.ofNat 34]), ('”', [Char.ofNat 34]),
   (',', []), (';', []), (':', []), ('!', []), ('?', []), ('.', []),
   ('-', [' ']), ('_', [' ']), ('/', [' ']), (Char.ofNat 92, [' ']), ('|', [' ']),
   ('(', []), (')', []), (Char.ofNat 39, []), (Char.ofNat 34, []),
   (Char.ofNat 9, [' '])]

/-- `s.replace(k, v)` for a one-character pattern `k`: substitute `v` for
every occurrence of `k`. -/
def replaceChar (k : Char) (v : List Char) (s : List Char) : List Char :=
  s.flatMap fun c => if c = k then v else [c]

/-- The whole substitution phase of `cleanup_special_characters`: the
`str.replace` calls applied sequentially in source order. -/
def applyReplacements (s : List Char) : List Char :=
  replacements.foldl (fun acc kv => replaceChar kv.1 kv.2 acc) s

/-- The characters the substitution phase rewrites (dict keys, removed
punctuation and the tab). -/
def keyChars : List Char := replacements.map Prod.fst

/-- `s.split()`: split on runs of whitespace, discarding empty pieces
(hence also leading/trailing whitespace). -/
def pySplit : List Char → List (List Char)
  | [] => []
  | c :: cs =>
    if isSpaceCh c then pySplit cs
    else (c :: cs.takeWhile (fun x => !isSpaceCh x)) ::
      pySplit (cs.dropWhile (fun x => !isSpaceCh x))
termination_by s => s.length
decreasing_by
  · simp
  · simpa using Nat.lt_succ_of_le ((cs.dropWhile_sublist _).length_le)

/-- `" ".join(ws)`: interleave a single space between the pieces. -/
def joinWords : List (List Char) → List Char
  | [] => []
  | [w] => w
  | w :: ws@(_ :: _) => w ++ ' ' :: joinWords ws

/-- `StationDataFetcher.cleanup_special_characters`
(src/data_fetcher.py:52-72) on the character list of the input string:
empty (falsy) input is returned unchanged; otherwise the substitutions run
in source order and the result is re-joined from its whitespace-split
words (`" ".join(address.split())`). -/
def cleanupChars (s : List Char) : List Char :=
  if s.isEmpty then s
  else joinWords (pySplit (applyReplacements s))

/-- `cleanup_special_characters` on `String`s. -/
def cleanup_special_characters (s : String) : String :=
  String.mk (cleanupChars s.toList)

/-! ## Supporting lemmas about marking and novelty -/

theorem markStep_getD_mono {h : History} {u u' : String} {rid x : String}
    (hx : x ∈ (h u').getD []) : x ∈ ((markStep u h rid) u').getD [] := by
  unfold markStep
  split
  · exact hx
  · unfold histInsert
    by_cases he : u' = u
    · subst he
      simp only [if_pos rfl, Option.getD_some]
      exact List.mem_append_left _ hx
    · simpa [he] using hx

theorem foldl_markStep_getD_mono {u u' : String} {x : String} :
    ∀ (rids : List String) (h : History), x ∈ (h u').getD [] →
      x ∈ ((rids.foldl (markStep u) h) u').getD []
  | [], _, hx => hx
  | _ :: rids, h, hx =>
    foldl_markStep_getD_mono rids _ (markStep_getD_mono hx)

theorem markStep_isSome {h : History} {u x : String} {rid : String}
    (hx : (h x).isSome) : ((markStep u h rid) x).isSome := by
  unfold markStep
  split
  · exact hx
  · unfold histInsert
    by_cases he : x = u <;> simp [he, hx]

theorem foldl_markStep_isSome {u x : String} :
    ∀ (rids : List String) (h : History), (h x).isSome →
      ((rids.foldl (markStep u) h) x).isSome
  | [], _, hx => hx
  | _ :: rids, _, hx => foldl_markStep_isSome rids _ (markStep_isSome hx)

theorem mem_foldl_markStep {u : String} {rid : String} :
    ∀ (rids : List String) (h : History), rid ∈ rids →
      rid ∈ ((rids.foldl (markStep u) h) u).getD []
  | [], _, hmem => absurd hmem (List.not_mem_nil rid)
  | r :: rids, h, hmem => by
    rcases List.mem_cons.mp hmem with he | htl
    · subst he
      rw [List.foldl_cons]
      apply foldl_markStep_getD_mono
      unfold markStep
      split
      · next hc => exact List.elem_iff.mp hc
      · unfold histInsert
        simp
    · exact mem_foldl_markStep rids _ htl

theorem mark_getD_mono {h : History} (u u' : String) (c : Station) {x : String}
    (hx : x ∈ (h u').getD []) :
    x ∈ ((mark_route_as_notified h u c) u').getD [] := by
  unfold mark_route_as_notified
  apply foldl_markStep_getD_mono
  cases hc : h u with
  | none =>
    simp only [hc]
    unfold histInsert
    by_cases he : u' = u
    · subst he
      rw [hc] at hx
      simp at hx
    · simpa [he] using hx
  | some l => simpa [hc] using hx

theorem mark_mem (h : History) (u : String) {c : Station} {rid : String}
    (hmem : rid ∈ routeIds c) :
    rid ∈ ((mark_route_as_notified h u c) u).getD [] := by
  unfold mark_route_as_notified
  exact mem_foldl_markStep _ _ hmem

theorem mark_isSome (h : History) (u : String) (c : Station) :
    ((mark_route_as_notified h u c) u).isSome := by
  unfold mark_route_as_notified
  apply foldl_markStep_isSome
  cases hc : h u with
  | none => simp [hc, histInsert]
  | some l => simp [hc]

theorem is_new_route_eq_false_iff (h : History) (u : String) (c : Station) :
    is_new_route h u c = false ↔
      ∃ l, h u = some l ∧ ∃ rid ∈ routeIds c, rid ∈ l := by
  unfold is_new_route
  cases hc : h u with
  | none => simp
  | some notified => simp [List.any_eq_true, List.elem_iff]

theorem is_new_route_of_some_mem {h : History} {u : String} {c : Station}
    {l : List String} (hh : h u = some l) {rid : String}
    (h1 : rid ∈ routeIds c) (h2 : rid ∈ l) :
    is_new_route h u c = false :=
  (is_new_route_eq_false_iff h u c).mpr ⟨l, hh, rid, h1, h2⟩

/-! ## Claims -/

theorem mark_isSome_of {h : History} {u' : String} {c : Station} {x : String}
    (hx : (h x).isSome) : ((mark_route_as_notified h u' c) x).isSome := by
  unfold mark_route_as_notified
  apply foldl_markStep_isSome
  cases hc : h u' with
  | none =>
    simp only [hc]
    unfold histInsert
    by_cases he : x = u' <;> simp [he, hx]
  | some l => simpa [hc] using hx

/-- C1: dedup idempotence.  (i) Running the novelty test twice in
sequence, threading the engine state, yields the same boolean both times
(the first call leaves the state unchanged).  (ii) After
`_mark_route_as_notified` on a candidate with a non-empty `returns` list,
`_is_new_route` on the same pair answers `False`.  (iii) The answer stays
`False` across any further `_mark_route_as_notified` calls (marking only
ever adds fingerprints) — only the reconciliation pass removes
fingerprints and can make the pair novel again. -/
theorem dedup_idempotence :
    (∀ (s : BotState) (u : String) (c : Station),
        (is_new_route_s s u c).1 = (is_new_route_s (is_new_route_s s u c).2 u c).1) ∧
    (∀ (h : History) (u : String) (c : Station), c.returns ≠ [] →
        is_new_route (mark_route_as_notified h u c) u c = false) ∧
    (∀ (h : History) (u u' : String) (c c' : Station),
        is_new_route h u c = false →
        is_new_route (mark_route_as_notified h u' c') u c = false) := by
  refine ⟨fun s u c => rfl, ?_, ?_⟩
  · intro h u c hne
    obtain ⟨l, hl⟩ := Option.isSome_iff_exists.mp (mark_isSome h u c)
    have hids : routeIds c ≠ [] := by simp [routeIds, hne]
    obtain ⟨rid, hrid⟩ := List.exists_mem_of_ne_nil _ hids
    have hmem := mark_mem h u hrid
    rw [hl] at hmem
    exact is_new_route_of_some_mem hl hrid (by simpa using hmem)
  · intro h u u' c c' hfalse
    obtain ⟨l, hl, rid, hrid, hin⟩ := (is_new_route_eq_false_iff h u c).mp hfalse
    have hx : rid ∈ (h u).getD [] := by simp [hl, hin]
    have hx' := mark_getD_mono u' u c' hx
    have hs : ((mark_route_as_notified h u' c') u).isSome :=
      mark_isSome_of (by simp [hl])
    obtain ⟨l', hl'⟩ := Option.isSome_iff_exists.mp hs
    rw [hl'] at hx'
    exact is_new_route_of_some_mem hl' hrid (by simpa using hx')

/-- Witness for `dedup_idempotence`: a freshly marked one-destination
candidate is no longer novel, and stays non-novel after another user's
candidate is marked. -/
theorem dedup_idempotence_witness :
    is_new_route
      (mark_route_as_notified (fun _ => none) "u1"
        ⟨"A", "addrA", [⟨"B", "addrB", [⟨"01/07/2024", "05/07/2024"⟩], "m", ""⟩]⟩)
      "u1" ⟨"A", "addrA", [⟨"B", "addrB", [⟨"01/07/2024", "05/07/2024"⟩], "m", ""⟩]⟩ = false ∧
    is_new_route
      (mark_route_as_notified
        (fun x => if x = "u1" then some ["A_B_01/07/2024_05/07/2024"] else none) "u2"
        ⟨"C", "addrC", [⟨"D", "addrD", [⟨"02/07/2024", "06/07/2024"⟩], "m", ""⟩]⟩)
      "u1" ⟨"A", "addrA", [⟨"B", "addrB", [⟨"01/07/2024", "05/07/2024"⟩], "m", ""⟩]⟩ = false :=
  ⟨dedup_idempotence.2.1 (fun _ => none) "u1"
      ⟨"A", "addrA", [⟨"B", "addrB", [⟨"01/07/2024", "05/07/2024"⟩], "m", ""⟩]⟩ (by decide),
   dedup_idempotence.2.2
      (fun x => if x = "u1" then some ["A_B_01/07/2024_05/07/2024"] else none)
      "u1" "u2"
      ⟨"A", "addrA", [⟨"B", "addrB", [⟨"01/07/2024", "05/07/2024"⟩], "m", ""⟩]⟩
      ⟨"C", "addrC", [⟨"D", "addrD", [⟨"02/07/2024", "06/07/2024"⟩], "m", ""⟩]⟩
      (by decide)⟩

/-- C5: the reconciliation pass prunes and never adds.  For every
subscriber with a history entry, the new entry is exactly the old one
restricted to the fingerprints of routes present in the fresh catalog
snapshot (a sublist, so nothing is ever added); subscribers without an
entry stay absent; and on the spec's example — history
`{u1: [fpA, fpB]}` against a catalog containing only the route with
fingerprint `fpA` — the result is `{u1: [fpA]}`. -/
theorem reconciliation_prunes_never_adds :
    (∀ (h : History) (stations : List Station) (u : String) (l : List String),
        h u = some l →
        ∃ l', (check_deleted_routes h stations) u = some l' ∧
          (∀ fp, fp ∈ l' ↔ fp ∈ l ∧ fp ∈ currentRouteIds stations) ∧
          l'.Sublist l) ∧
    (∀ (h : History) (stations : List Station) (u : String),
        h u = none → (check_deleted_routes h stations) u = none) ∧
    (check_deleted_routes
        (fun x => if x = "u1" then some ["A_B_01/07/2024_05/07/2024", "fpB"] else none)
        [⟨"A", "addrA", [⟨"B", "addrB", [⟨"01/07/2024", "05/07/2024"⟩], "m", ""⟩]⟩]) "u1" =
      some ["A_B_01/07/2024_05/07/2024"] := by
  refine ⟨?_, ?_, by decide⟩
  · intro h stations u l hu
    refine ⟨l.filter (fun rid => (currentRouteIds stations).contains rid),
      ?_, ?_, List.filter_sublist l⟩
    · show (h u).map _ = _
      rw [hu, Option.map_some']
    · intro fp
      simp [List.mem_filter, List.elem_iff]
  · intro h stations u hu
    simp [check_deleted_routes, hu]

/-- Witness for `reconciliation_prunes_never_adds` at the spec's concrete
history and catalog. -/
theorem reconciliation_prunes_never_adds_witness :
    ∃ l', (check_deleted_routes
        (fun x => if x = "u1" then some ["A_B_01/07/2024_05/07/2024", "fpB"] else none)
        [⟨"A", "addrA", [⟨"B", "addrB", [⟨"01/07/2024", "05/07/2024"⟩], "m", ""⟩]⟩]) "u1" =
          some l' ∧
      (∀ fp, fp ∈ l' ↔ fp ∈ ["A_B_01/07/2024_05/07/2024", "fpB"] ∧
        fp ∈ currentRouteIds
          [⟨"A", "addrA", [⟨"B", "addrB", [⟨"01/07/2024", "05/07/2024"⟩], "m", ""⟩]⟩]) ∧
      l'.Sublist ["A_B_01/07/2024_05/07/2024", "fpB"] :=
  reconciliation_prunes_never_adds.1
    (fun x => if x = "u1" then some ["A_B_01/07/2024_05/07/2024", "fpB"] else none)
    [⟨"A", "addrA", [⟨"B", "addrB", [⟨"01/07/2024", "05/07/2024"⟩], "m", ""⟩]⟩]
    "u1" ["A_B_01/07/2024_05/07/2024", "fpB"] rfl

theorem fetchLoop_requests_le (maxR rD reqD : Nat) (resp : Nat → UpstreamResp) :
    ∀ (remaining attempt : Nat) (sleeps : List Nat),
      (fetchLoop maxR rD reqD resp attempt remaining sleeps).requests ≤ attempt + remaining := by
  intro remaining
  induction remaining with
  | zero =>
    intro attempt sleeps
    simp [fetchLoop]
  | succ n ih =>
    intro attempt sleeps
    unfold fetchLoop
    cases resp attempt with
    | success v =>
      simp
    | httpError code =>
      dsimp only
      by_cases h429 : code = 429
      · subst h429
        rw [if_pos rfl]
        by_cases hlt : attempt < maxR - 1
        · rw [if_pos hlt]
          exact le_trans (ih (attempt + 1) _) (by omega)
        · rw [if_neg hlt]
          simp
      · rw [if_neg h429]
        simp
    | transportError =>
      dsimp only
      by_cases hlt : attempt < maxR - 1
      · rw [if_pos hlt]
        exact le_trans (ih (attempt + 1) _) (by omega)
      · rw [if_neg hlt]
        simp

/-- C3, counterexample: with `max_retries = 3` and `retry_delay = 5 s`
(50 tenths) the loop `for attempt in range(self.max_retries)` issues at
most 3 requests, so against three consecutive 429 responses followed by a
success the fetch does NOT issue 4 requests and does NOT return the
successful payload — it stops after the 3rd request and returns `None`. -/
theorem retry_backoff_counterexample :
    ¬ ((get_json_from_url 3 50 1
          (fun n => if n < 3 then UpstreamResp.httpError 429 else UpstreamResp.success 7)).requests = 4 ∧
        (get_json_from_url 3 50 1
          (fun n => if n < 3 then UpstreamResp.httpError 429 else UpstreamResp.success 7)).result = some 7) := by
  decide

/-- C3, amended: with `max_retries = 3`, `retry_delay = 5 s` and
`request_delay = 0.1 s` (times in tenths of a second), three consecutive
429 responses exhaust the attempt budget — exactly 3 requests are issued
(sleeping 0.1 s, then 5 s + 5 s, then 10 s + 10 s: the 429 handler sleeps
`5·2^attempt` and the next iteration sleeps the same amount again, so the
inter-request gaps are 10 s and 20 s, never shorter than the claimed 5 s
and 10 s) and no payload is returned.  When the upstream answers two 429s
and then a success, the same three requests and sleeps occur and the
successful payload is returned.  In general the number of issued requests
never exceeds `max_retries`, so a 4th request is impossible. -/
theorem retry_backoff_amended :
    get_json_from_url 3 50 1
        (fun n => if n < 3 then UpstreamResp.httpError 429 else UpstreamResp.success 7) =
      ⟨none, 3, [1, 50, 50, 100, 100]⟩ ∧
    get_json_from_url 3 50 1
        (fun n => if n < 2 then UpstreamResp.httpError 429 else UpstreamResp.success 7) =
      ⟨some 7, 3, [1, 50, 50, 100, 100]⟩ ∧
    (∀ (maxR rD reqD : Nat) (resp : Nat → UpstreamResp),
        (get_json_from_url maxR rD reqD resp).requests ≤ maxR) := by
  refine ⟨by decide, by decide, ?_⟩
  intro maxR rD reqD resp
  simpa using fetchLoop_requests_le maxR rD reqD resp maxR 0 []

theorem windowRangeOverlap_eq_true_iff (r : FilterRange) (ws we : CalDate) :
    windowRangeOverlap r ws we = true ↔
      ∃ fs fe, parseYMD r.fstart = some fs ∧ parseYMD r.fend = some fe ∧
        dateLe ws fe = true ∧ dateLe fs we = true := by
  unfold windowRangeOverlap
  cases h1 : parseYMD r.fstart <;> cases h2 : parseYMD r.fend <;> simp

theorem windowMatches_eq_true_iff (ranges : List FilterRange) (w : DateEntry) :
    windowMatches ranges w = true ↔
      ∃ ws we, parseDMY w.startDate = some ws ∧ parseDMY w.endDate = some we ∧
        ∃ r ∈ ranges, windowRangeOverlap r ws we = true := by
  unfold windowMatches
  cases h1 : parseDMY w.startDate <;> cases h2 : parseDMY w.endDate <;>
    simp [List.any_eq_true]

/-- C6: the date filter is correct.  `_route_passes_date_filter(u, ret)`
answers `True` iff the user has no configured date ranges, or some
(well-formed) availability window of `ret` overlaps some (well-formed)
configured range under the boundary-inclusive test
`window.start <= filter.end AND window.end >= filter.start`; and on the
spec's boundary examples, the window `[01/06/2024, 10/06/2024]` passes the
filter `[2024-06-10, 2024-06-20]` while `[01/06/2024, 09/06/2024]` fails
it. -/
theorem date_filter_correct :
    (∀ (filters : String → Option (List FilterRange)) (u : String) (ret : Return),
        route_passes_date_filter_user filters u ret = true ↔
          ((filters u).getD [] = [] ∨
            ∃ w ∈ ret.available_dates, ∃ ws we,
              parseDMY w.startDate = some ws ∧ parseDMY w.endDate = some we ∧
              ∃ r ∈ (filters u).getD [], ∃ fs fe,
                parseYMD r.fstart = some fs ∧ parseYMD r.fend = some fe ∧
                dateLe ws fe = true ∧ dateLe fs we = true)) ∧
    route_passes_date_filter [⟨"2024-06-10", "2024-06-20"⟩]
      ⟨"B", "a", [⟨"01/06/2024", "10/06/2024"⟩], "m", ""⟩ = true ∧
    route_passes_date_filter [⟨"2024-06-10", "2024-06-20"⟩]
      ⟨"B", "a", [⟨"01/06/2024", "09/06/2024"⟩], "m", ""⟩ = false := by
  refine ⟨?_, by decide, by decide⟩
  intro filters u ret
  unfold route_passes_date_filter_user route_passes_date_filter
  by_cases hemp : ((filters u).getD []).isEmpty
  · simp [hemp, List.isEmpty_iff.mp hemp]
  · rw [if_neg hemp]
    have hne : (filters u).getD [] ≠ [] := fun hc => hemp (by simp [hc])
    simp only [List.any_eq_true, windowMatches_eq_true_iff,
      windowRangeOverlap_eq_true_iff, hne, false_or]

/-! ## Lemmas for the cleaning function -/

theorem replaceChar_append (k : Char) (v : List Char) (x y : List Char) :
    replaceChar k v (x ++ y) = replaceChar k v x ++ replaceChar k v y :=
  List.flatMap_append x y _

theorem foldRepl_append : ∀ (rs : List (Char × List Char)) (x y : List Char),
    rs.foldl (fun acc kv => replaceChar kv.1 kv.2 acc) (x ++ y) =
      rs.foldl (fun acc kv => replaceChar kv.1 kv.2 acc) x ++
        rs.foldl (fun acc kv => replaceChar kv.1 kv.2 acc) y
  | [], _, _ => rfl
  | kv :: rs, x, y => by
    rw [List.foldl_cons, List.foldl_cons, List.foldl_cons, replaceChar_append]
    exact foldRepl_append rs _ _

theorem applyReplacements_append (x y : List Char) :
    applyReplacements (x ++ y) = applyReplacements x ++ applyReplacements y :=
  foldRepl_append replacements x y

theorem applyReplacements_nil : applyReplacements [] = [] := by decide

theorem applyReplacements_flatten :
    ∀ s : List Char, applyReplacements s = s.flatMap fun c => applyReplacements [c]
  | [] => applyReplacements_nil
  | c :: t => by
    rw [show (c :: t) = [c] ++ t from rfl, applyReplacements_append,
      applyReplacements_flatten t, List.flatMap_append]
    simp

theorem foldRepl_single_not_key : ∀ (rs : List (Char × List Char)) (a : Char),
    a ∉ rs.map Prod.fst →
    rs.foldl (fun acc kv => replaceChar kv.1 kv.2 acc) [a] = [a]
  | [], _, _ => rfl
  | kv :: rs, a, hna => by
    have h1 : a ≠ kv.1 ∧ a ∉ rs.map Prod.fst := by simpa using hna
    rw [List.foldl_cons, show replaceChar kv.1 kv.2 [a] = [a] from by
      simp [replaceChar, h1.1]]
    exact foldRepl_single_not_key rs a h1.2

theorem applyReplacements_single_of_not_key {a : Char} (h : a ∉ keyChars) :
    applyReplacements [a] = [a] :=
  foldRepl_single_not_key replacements a h

/-- Every character produced by substituting a key is itself left alone by
the substitution phase (checked exhaustively over the table). -/
theorem key_output_stable :
    ∀ a ∈ keyChars, ∀ c ∈ applyReplacements [a], applyReplacements [c] = [c] := by
  decide

theorem stable_of_mem {a c : Char} (h : c ∈ applyReplacements [a]) :
    applyReplacements [c] = [c] := by
  by_cases hk : a ∈ keyChars
  · exact key_output_stable a hk c h
  · rw [applyReplacements_single_of_not_key hk, List.mem_singleton] at h
    subst h
    exact applyReplacements_single_of_not_key hk

theorem applyReplacements_id_of_stable :
    ∀ s : List Char, (∀ c ∈ s, applyReplacements [c] = [c]) → applyReplacements s = s
  | [], _ => applyReplacements_nil
  | c :: t, hst => by
    rw [show (c :: t) = [c] ++ t from rfl, applyReplacements_append,
      hst c (by simp), applyReplacements_id_of_stable t (fun d hd => hst d (by simp [hd]))]

theorem takeWhile_dropWhile_all {p : Char → Bool} :
    ∀ w : List Char, (∀ c ∈ w, p c = true) →
      w.takeWhile p = w ∧ w.dropWhile p = []
  | [], _ => by simp
  | c :: w, hw => by
    have hc : p c = true := hw c (by simp)
    have ih := takeWhile_dropWhile_all w fun d hd => hw d (by simp [hd])
    exact ⟨by simp [List.takeWhile_cons, hc, ih.1], by simp [List.dropWhile_cons, hc, ih.2]⟩

theorem takeWhile_dropWhile_all_append {p : Char → Bool} :
    ∀ (w : List Char) (b : Char) (r : List Char),
      (∀ c ∈ w, p c = true) → p b = false →
      (w ++ b :: r).takeWhile p = w ∧ (w ++ b :: r).dropWhile p = b :: r
  | [], b, r, _, hb => by
    constructor <;> simp [List.takeWhile_cons, List.dropWhile_cons, hb]
  | c :: w, b, r, hw, hb => by
    have hc : p c = true := hw c (by simp)
    have ih := takeWhile_dropWhile_all_append w b r (fun d hd => hw d (by simp [hd])) hb
    constructor
    · simpa [List.takeWhile_cons, hc] using ih.1
    · simpa [List.dropWhile_cons, hc] using ih.2

theorem mem_pySplit (s : List Char) :
    ∀ w ∈ pySplit s, w ≠ [] ∧ ∀ c ∈ w, isSpaceCh c = false ∧ c ∈ s := by
  induction s using pySplit.induct with
  | case1 =>
    intro w hw
    simp [pySplit] at hw
  | case2 c cs hsp ih =>
    intro w hw
    rw [pySplit, if_pos hsp] at hw
    obtain ⟨h1, h2⟩ := ih w hw
    exact ⟨h1, fun d hd => ⟨(h2 d hd).1, by simp [(h2 d hd).2]⟩⟩
  | case3 c cs hsp ih =>
    intro w hw
    rw [pySplit, if_neg hsp] at hw
    rcases List.mem_cons.mp hw with he | htl
    · subst he
      refine ⟨by simp, ?_⟩
      intro d hd
      rcases List.mem_cons.mp hd with hdc | hdt
      · subst hdc
        exact ⟨by simpa using hsp, by simp⟩
      · refine ⟨by simpa using List.mem_takeWhile_imp hdt, ?_⟩
        exact List.mem_cons_of_mem c ((cs.takeWhile_sublist _).mem hdt)
    · obtain ⟨h1, h2⟩ := ih w htl
      refine ⟨h1, fun d hd => ⟨(h2 d hd).1, ?_⟩⟩
      exact List.mem_cons_of_mem c ((cs.dropWhile_sublist _).mem (h2 d hd).2)

theorem pySplit_space_cons (r : List Char) : pySplit (' ' :: r) = pySplit r := by
  rw [pySplit, if_pos (by decide : isSpaceCh ' ' = true)]

theorem pySplit_single_word {w : List Char} (hne : w ≠ [])
    (hns : ∀ c ∈ w, isSpaceCh c = false) : pySplit w = [w] := by
  cases w with
  | nil => exact absurd rfl hne
  | cons c cs =>
    have hc : isSpaceCh c = false := hns c (by simp)
    have hall : ∀ d ∈ cs, (fun x => !isSpaceCh x) d = true := fun d hd => by
      simp [hns d (by simp [hd])]
    have h2 := takeWhile_dropWhile_all cs hall
    rw [pySplit, if_neg (by simp [hc]), h2.1, h2.2]
    simp [pySplit]

theorem pySplit_word_append {w : List Char} (hne : w ≠ [])
    (hns : ∀ c ∈ w, isSpaceCh c = false) (r : List Char) :
    pySplit (w ++ ' ' :: r) = w :: pySplit r := by
  cases w with
  | nil => exact absurd rfl hne
  | cons c cs =>
    have hc : isSpaceCh c = false := hns c (by simp)
    have hall : ∀ d ∈ cs, (fun x => !isSpaceCh x) d = true := fun d hd => by
      simp [hns d (by simp [hd])]
    have hsp : (fun x => !isSpaceCh x) ' ' = false := by decide
    have h2 := takeWhile_dropWhile_all_append cs ' ' r hall hsp
    show pySplit (c :: (cs ++ ' ' :: r)) = _
    rw [pySplit, if_neg (by simp [hc]), h2.1, h2.2, pySplit_space_cons]

theorem joinWords_single (w : List Char) : joinWords [w] = w := by
  simp [joinWords]

theorem joinWords_cons_cons (w w' : List Char) (ws : List (List Char)) :
    joinWords (w :: w' :: ws) = w ++ ' ' :: joinWords (w' :: ws) := by
  simp [joinWords]

theorem mem_joinWords : ∀ (ws : List (List Char)) (c : Char), c ∈ joinWords ws →
    c = ' ' ∨ ∃ w ∈ ws, c ∈ w
  | [], c, h => by simp [joinWords] at h
  | [w], c, h => by
    right
    exact ⟨w, by simp, by simpa [joinWords] using h⟩
  | w :: w' :: ws, c, h => by
    rw [joinWords_cons_cons] at h
    rcases List.mem_append.mp h with hw | hrest
    · exact Or.inr ⟨w, by simp, hw⟩
    · rcases List.mem_cons.mp hrest with he | hj
      · exact Or.inl he
      · rcases mem_joinWords (w' :: ws) c hj with he | ⟨v, hv, hcv⟩
        · exact Or.inl he
        · exact Or.inr ⟨v, List.mem_cons_of_mem w hv, hcv⟩

theorem pySplit_joinWords : ∀ ws : List (List Char),
    (∀ w ∈ ws, w ≠ [] ∧ ∀ c ∈ w, isSpaceCh c = false) →
    pySplit (joinWords ws) = ws
  | [], _ => by simp [joinWords, pySplit]
  | [w], hws => by
    rw [joinWords_single]
    exact pySplit_single_word (hws w (by simp)).1 (hws w (by simp)).2
  | w :: w' :: ws, hws => by
    rw [joinWords_cons_cons,
      pySplit_word_append (hws w (by simp)).1 (hws w (by simp)).2,
      pySplit_joinWords (w' :: ws) fun v hv => hws v (List.mem_cons_of_mem w hv)]

theorem cleanupChars_idem (s : List Char) :
    cleanupChars (cleanupChars s) = cleanupChars s := by
  by_cases hs : s.isEmpty
  · have h1 : cleanupChars s = s := by rw [cleanupChars, if_pos hs]
    rw [h1]
    exact h1
  · have hstable : ∀ c ∈ applyReplacements s, applyReplacements [c] = [c] := by
      intro c hc
      rw [applyReplacements_flatten s] at hc
      obtain ⟨a, _, hca⟩ := List.mem_flatMap.mp hc
      exact stable_of_mem hca
    have hmain : cleanupChars s = joinWords (pySplit (applyReplacements s)) := by
      rw [cleanupChars, if_neg hs]
    rw [hmain]
    have hwords := mem_pySplit (applyReplacements s)
    by_cases hte : (joinWords (pySplit (applyReplacements s))).isEmpty
    · rw [cleanupChars, if_pos hte]
    · rw [cleanupChars, if_neg hte]
      have happ : applyReplacements (joinWords (pySplit (applyReplacements s))) =
          joinWords (pySplit (applyReplacements s)) := by
        apply applyReplacements_id_of_stable
        intro c hc
        rcases mem_joinWords (pySplit (applyReplacements s)) c hc with hsp | ⟨w, hw, hcw⟩
        · subst hsp
          decide
        · exact hstable c ((hwords w hw).2 c hcw).2
      rw [happ, pySplit_joinWords (pySplit (applyReplacements s))
        fun w hw => ⟨(hwords w hw).1, fun c hc => ((hwords w hw).2 c hc).1⟩]

/-- C7: `cleanup_special_characters` is idempotent — applying it twice to
any input string yields the same result as applying it once.  (After one
pass no replaced/removed character survives — every character of the
output is a fixed point of the substitution table — and the whitespace
collapse leaves single interior spaces only, which a second split/join
reproduces unchanged.) -/
theorem cleanup_special_characters_idempotent (s : String) :
    cleanup_special_characters (cleanup_special_characters s) =
      cleanup_special_characters s := by
  unfold cleanup_special_characters
  rw [show (String.mk (cleanupChars s.toList)).toList = cleanupChars s.toList from rfl,
    cleanupChars_idem]

theorem is_new_route_of_fresh {h : History} {u : String} (c : Station)
    (hfresh : h u = none) : is_new_route h u c = true := by
  simp [is_new_route, hfresh]

theorem mark_single_fresh (h : History) (u : String) (origin oaddr : String)
    (r : Return) (hfresh : h u = none) :
    mark_route_as_notified h u ⟨origin, oaddr, [r]⟩ =
      histInsert (histInsert h u []) u [routeId origin r] := by
  unfold mark_route_as_notified
  rw [hfresh]
  show List.foldl (markStep u) (histInsert h u []) [routeId origin r] = _
  rw [List.foldl_cons, List.foldl_nil]
  unfold markStep
  simp [histInsert]

/-- Evaluation of the per-user body of `_check_and_notify_route` in the
both-sides-favorited scenario: a single-destination route whose origin and
destination are both in the user's favorites, no date filters, and no
prior history.  The origin branch fires (one `is_origin=True` event,
fingerprint recorded); the destination branch then recomputes the *same*
fingerprint for its single-destination candidate, finds it in the history
just written by the origin branch, and is suppressed. -/
theorem check_user_both_favorited (u origin oaddr : String) (ret : Return)
    (favs : List String) (h : History)
    (hdest : ret.destination ≠ "")
    (hfavO : origin ∈ favs) (hfavD : ret.destination ∈ favs)
    (hfresh : h u = none) :
    check_and_notify_route_user favs [] ⟨origin, oaddr, [ret]⟩ h u =
      ([⟨⟨origin, oaddr, [ret]⟩, true⟩],
        histInsert (histInsert h u []) u [routeId origin ret]) := by
  have hc1 : favs.contains origin = true := by simpa [List.elem_iff] using hfavO
  have hc2 : favs.contains ret.destination = true := by
    simpa [List.elem_iff] using hfavD
  have hpass : ∀ r, route_passes_date_filter [] r = true := fun _ => rfl
  have hmark := mark_single_fresh h u origin oaddr ret hfresh
  have hstep1 : (if favs.contains (Station.origin ⟨origin, oaddr, [ret]⟩) then
      (let filtered := (Station.returns ⟨origin, oaddr, [ret]⟩).filter
          fun r => route_passes_date_filter [] r
       if !filtered.isEmpty then
        (let froute : Station := { Station.mk origin oaddr [ret] with returns := filtered }
         if is_new_route h u froute then
          ([⟨froute, true⟩], mark_route_as_notified h u froute)
         else ([], h))
       else ([], h))
     else ([], h)) =
      (([⟨⟨origin, oaddr, [ret]⟩, true⟩],
        histInsert (histInsert h u []) u [routeId origin ret]) :
          List Notification × History) := by
    dsimp only
    rw [if_pos hc1, List.filter_cons_of_pos (by exact hpass ret), List.filter_nil,
      if_pos (by simp : (!([ret] : List Return).isEmpty) = true),
      if_pos (is_new_route_of_fresh _ hfresh), hmark]
  unfold check_and_notify_route_user
  rw [hstep1]
  show List.foldl _ _ [ret] = _
  rw [List.foldl_cons, List.foldl_nil]
  have hnotnew : is_new_route (histInsert (histInsert h u []) u [routeId origin ret]) u
      ⟨origin, oaddr, [ret]⟩ = false := by
    have hhist : (histInsert (histInsert h u []) u [routeId origin ret]) u =
        some [routeId origin ret] := by simp [histInsert]
    have hmem1 : routeId origin ret ∈ routeIds ⟨origin, oaddr, [ret]⟩ := by
      simp [routeIds]
    exact is_new_route_of_some_mem hhist hmem1 (by simp)
  dsimp only
  rw [if_pos ⟨hdest, hc2⟩, if_pos (hpass ret), hnotnew, if_neg (by simp)]

/-- C2, counterexample: subscriber `u1` favorites both `"A"` (the origin)
and `"B"` (the destination) of a single-destination route, has no date
filter and a fresh history; `_check_and_notify_route` emits exactly ONE
notification event — the origin match — and records ONE fingerprint, not
two: the destination match reuses the identical fingerprint string and is
suppressed as already notified. -/
theorem origin_destination_not_independent :
    (check_and_notify_route [("u1", ["A", "B"])] (fun _ => none)
        ⟨"A", "addrA", [⟨"B", "addrB", [⟨"01/07/2024", "05/07/2024"⟩], "m", ""⟩]⟩
        (fun _ => none)).1 =
      [("u1", ⟨⟨"A", "addrA", [⟨"B", "addrB", [⟨"01/07/2024", "05/07/2024"⟩], "m", ""⟩]⟩, true⟩)] ∧
    ((check_and_notify_route [("u1", ["A", "B"])] (fun _ => none)
        ⟨"A", "addrA", [⟨"B", "addrB", [⟨"01/07/2024", "05/07/2024"⟩], "m", ""⟩]⟩
        (fun _ => none)).2 "u1") = some ["A_B_01/07/2024_05/07/2024"] ∧
    (check_and_notify_route [("u1", ["A", "B"])] (fun _ => none)
        ⟨"A", "addrA", [⟨"B", "addrB", [⟨"01/07/2024", "05/07/2024"⟩], "m", ""⟩]⟩
        (fun _ => none)).1.length ≠ 2 := by
  refine ⟨by decide, by decide, by decide⟩

/-- C2, amended: origin-match and destination-match notifications share
one fingerprint, so they are NOT deduplicated independently.  For a
subscriber favoriting both the origin and the (single) destination of a
route, with passing (absent) date filters and fresh history, processing
the route emits exactly one notification event, the origin match
(`is_origin = true`), and records exactly one fingerprint; the destination
match is suppressed because its candidate's fingerprint equals the one the
origin match just recorded. -/
theorem origin_match_swallows_destination_match
    (u origin oaddr : String) (ret : Return) (favs : List String) (h : History)
    (horigin : origin ≠ "") (hdest : ret.destination ≠ "")
    (hfavO : origin ∈ favs) (hfavD : ret.destination ∈ favs)
    (hfresh : h u = none) :
    (check_and_notify_route [(u, favs)] (fun _ => none) ⟨origin, oaddr, [ret]⟩ h).1 =
      [(u, ⟨⟨origin, oaddr, [ret]⟩, true⟩)] ∧
    (check_and_notify_route [(u, favs)] (fun _ => none) ⟨origin, oaddr, [ret]⟩ h).2 u =
      some [routeId origin ret] := by
  have hbody := check_user_both_favorited u origin oaddr ret favs h hdest hfavO hfavD hfresh
  have hguard : ¬(Station.origin ⟨origin, oaddr, [ret]⟩ = "" ∨
      (Station.returns ⟨origin, oaddr, [ret]⟩).isEmpty = true) := by
    simp [horigin]
  unfold check_and_notify_route
  rw [if_neg hguard, List.foldl_cons, List.foldl_nil]
  simp only [Option.getD_none]
  rw [hbody]
  refine ⟨by simp, by simp [histInsert]⟩

/-- Witness for `origin_match_swallows_destination_match` at a concrete
subscriber, route and fresh history. -/
theorem origin_match_swallows_destination_match_witness :
    (check_and_notify_route [("u2", ["C", "D"])] (fun _ => none)
        ⟨"C", "addrC", [⟨"D", "addrD", [⟨"02/07/2024", "06/07/2024"⟩], "m", ""⟩]⟩
        (fun _ => none)).1 =
      [("u2", ⟨⟨"C", "addrC", [⟨"D", "addrD", [⟨"02/07/2024", "06/07/2024"⟩], "m", ""⟩]⟩, true⟩)] ∧
    (check_and_notify_route [("u2", ["C", "D"])] (fun _ => none)
        ⟨"C", "addrC", [⟨"D", "addrD", [⟨"02/07/2024", "06/07/2024"⟩], "m", ""⟩]⟩
        (fun _ => none)).2 "u2" =
      some [routeId "C" ⟨"D", "addrD", [⟨"02/07/2024", "06/07/2024"⟩], "m", ""⟩] :=
  origin_match_swallows_destination_match "u2" "C" "addrC"
    ⟨"D", "addrD", [⟨"02/07/2024", "06/07/2024"⟩], "m", ""⟩ ["C", "D"] (fun _ => none)
    (by decide) (by decide) (by decide) (by decide) rfl

/-- C9: the novelty test `_is_new_route` is read-only — in explicit
state-passing form it returns the engine state it was given, unchanged,
and its boolean is a function of the notification history alone. -/
theorem is_new_route_readonly (s : BotState) (u : String) (c : Station) :
    (is_new_route_s s u c).2 = s ∧
    (is_new_route_s s u c).1 = is_new_route s.notification_history u c :=
  ⟨rfl, rfl⟩

/-- C4, counterexample: two routes with the same origin, the same
destination and the same *multiset* of date windows — the two windows
merely swapped — produce different fingerprints, because the fingerprint
concatenates the windows in their given list order. -/
theorem routeId_not_multiset_stable :
    List.Perm
      [DateEntry.mk "01/07/2024" "05/07/2024", DateEntry.mk "10/07/2024" "12/07/2024"]
      [DateEntry.mk "10/07/2024" "12/07/2024", DateEntry.mk "01/07/2024" "05/07/2024"] ∧
    routeId "A" ⟨"B", "x", [⟨"01/07/2024", "05/07/2024"⟩, ⟨"10/07/2024", "12/07/2024"⟩], "m", ""⟩ ≠
      routeId "A" ⟨"B", "x", [⟨"10/07/2024", "12/07/2024"⟩, ⟨"01/07/2024", "05/07/2024"⟩], "m", ""⟩ := by
  constructor
  · decide
  · decide

/-- C4, amended: the route fingerprint is a pure function of the origin,
the destination and the *ordered list* of date windows — two routes
agreeing on those three fields (whatever their other fields) always get
the same fingerprint string, so recomputation in any later run on
identical field values is identical. -/
theorem routeId_determined_by_fields (origin : String) (r1 r2 : Return)
    (hdest : r1.destination = r2.destination)
    (hdates : r1.available_dates = r2.available_dates) :
    routeId origin r1 = routeId origin r2 := by
  cases r1
  cases r2
  simp only at hdest hdates
  simp [routeId, hdest, hdates]

/-- Witness for `routeId_determined_by_fields`: two concrete routes that
differ in address, vehicle model and image but share origin, destination
and windows have equal fingerprints. -/
theorem routeId_determined_by_fields_witness :
    routeId "A" ⟨"B", "x", [⟨"01/07/2024", "05/07/2024"⟩], "m1", "i1"⟩ =
      routeId "A" ⟨"B", "y", [⟨"01/07/2024", "05/07/2024"⟩], "m2", "i2"⟩ :=
  routeId_determined_by_fields "A" _ _ rfl rfl

/-- C10: a candidate with an empty `returns` list is perpetually novel —
`_is_new_route` answers `True` for it against every history, and
`_mark_route_as_notified` leaves the user's fingerprint list unchanged
(so in particular the candidate is still novel after being marked, however
often). -/
theorem empty_returns_perpetually_novel (h : History) (u : String) (c : Station)
    (hret : c.returns = []) :
    is_new_route h u c = true ∧
    ((mark_route_as_notified h u c) u).getD [] = (h u).getD [] ∧
    is_new_route (mark_route_as_notified h u c) u c = true := by
  have hids : routeIds c = [] := by simp [routeIds, hret]
  have hnew : ∀ h' : History, is_new_route h' u c = true := by
    intro h'
    unfold is_new_route
    cases h' u <;> simp [hids]
  refine ⟨hnew h, ?_, hnew _⟩
  unfold mark_route_as_notified
  rw [hids]
  simp only [List.foldl_nil]
  cases hc : h u with
  | none => simp [hc, histInsert]
  | some l => simp [hc]

/-- Witness for `empty_returns_perpetually_novel` at a concrete history
and candidate. -/
theorem empty_returns_perpetually_novel_witness :
    is_new_route (fun x => if x = "u1" then some ["A_B_01/07/2024_05/07/2024"] else none)
        "u1" ⟨"A", "addrA", []⟩ = true ∧
    ((mark_route_as_notified
        (fun x => if x = "u1" then some ["A_B_01/07/2024_05/07/2024"] else none)
        "u1" ⟨"A", "addrA", []⟩) "u1").getD [] =
      ((if ("u1" : String) = "u1" then some ["A_B_01/07/2024_05/07/2024"] else none).getD []) ∧
    is_new_route
        (mark_route_as_notified
          (fun x => if x = "u1" then some ["A_B_01/07/2024_05/07/2024"] else none)
          "u1" ⟨"A", "addrA", []⟩)
        "u1" ⟨"A", "addrA", []⟩ = true :=
  empty_returns_perpetually_novel
    (fun x => if x = "u1" then some ["A_B_01/07/2024_05/07/2024"] else none)
    "u1" ⟨"A", "addrA", []⟩ rfl

/-- C8: for a multi-destination candidate (two or more `returns` entries),
`_is_new_route` answers `False` as soon as any single entry's fingerprint
is already in the user's history — one previously-notified destination
suppresses the whole candidate. -/
theorem one_notified_destination_suppresses (h : History) (u : String)
    (c : Station) (notified : List String) (hh : h u = some notified)
    (hlen : 2 ≤ c.returns.length)
    (hmem : ∃ ret ∈ c.returns, routeId c.origin ret ∈ notified) :
    is_new_route h u c = false := by
  obtain ⟨ret, hret, hfp⟩ := hmem
  exact is_new_route_of_some_mem hh
    (by exact List.mem_map.mpr ⟨ret, hret, rfl⟩) hfp

/-- Witness for `one_notified_destination_suppresses`: a two-destination
candidate whose first destination's fingerprint was already notified. -/
theorem one_notified_destination_suppresses_witness :
    is_new_route (fun x => if x = "u1" then some ["A_B_01/07/2024_05/07/2024"] else none)
      "u1"
      ⟨"A", "addrA",
        [⟨"B", "addrB", [⟨"01/07/2024", "05/07/2024"⟩], "m", ""⟩,
         ⟨"C", "addrC", [⟨"02/07/2024", "06/07/2024"⟩], "m", ""⟩]⟩ = false :=
  one_notified_destination_suppresses _ "u1" _ _ rfl (by decide)
    ⟨⟨"B", "addrB", [⟨"01/07/2024", "05/07/2024"⟩], "m", ""⟩, by decide, by decide⟩

end RallyBot
